import Mathlib

/-!
Shallow embedding of the evcc OCPP connector/session layer
(src/unnamed/part_000, src/unnamed/part_001, src/charger/ocpp/cs_core.go,
src/charger/ocpp/instance.go) and proofs of the specification claims.

Modelling conventions:
- Go `time.Time` values are modelled as `Int` (a point on a linear time
  line); `*types.DateTime` pointers become `Option Int`.
- Go maps become functions into `Option`; a map write is a pointwise
  functional update, exactly the Go replace-or-insert semantics.
- The connector clock (`conn.clock.Now()`) and the package constant
  `Timeout` are passed as explicit `now` / `timeout` arguments.
- The one-shot channel `statusC` is modelled by a counter `statusCloses`
  recording how many times `close(statusC)` has executed; in Go a second
  close is a runtime panic, so the claim of interest is that the counter
  never exceeds 1.
- A Go nil pointer argument is `none`; dereferencing it in the source is a
  runtime panic, modelled by an `Option` result (`none` = panic).
- Go `int`/`int64` become `Int`; no arithmetic here approaches 2^63, so
  wrap-around is irrelevant and not modelled.
-/

/-- `types.Measurand` is a string type in ocpp-go. -/
abbrev Measurand := String

/-- `types.SampledValue` restricted to the fields the code reads
(`Value`, `Measurand`, `Phase`, `Unit`); the remaining string fields are
never inspected and default to `""` just like Go zero values. -/
structure SampledValue where
  value : String
  measurand : Measurand
  phase : String
  unit : String
deriving DecidableEq, Repr

/-- OCPP 1.6 constant `types.MeasurandPowerActiveImport`. -/
def MeasurandPowerActiveImport : Measurand := "Power.Active.Import"

/-- OCPP 1.6 constant `types.MeasurandCurrentImport`. -/
def MeasurandCurrentImport : Measurand := "Current.Import"

/-- OCPP 1.6 constant `types.UnitOfMeasureW`. -/
def UnitOfMeasureW : String := "W"

/-- OCPP 1.6 constant `types.UnitOfMeasureA`. -/
def UnitOfMeasureA : String := "A"

/-- OCPP 1.6 constant `types.AuthorizationStatusAccepted`. -/
def AuthorizationStatusAccepted : String := "Accepted"

/-- OCPP 1.6 constant `core.DataTransferStatusAccepted`. -/
def DataTransferStatusAccepted : String := "Accepted"

/-- OCPP 1.6 constant `core.ChargePointStatusCharging`. -/
def ChargePointStatusCharging : String := "Charging"

/-- OCPP 1.6 constant `core.ChargePointStatusSuspendedEV`. -/
def ChargePointStatusSuspendedEV : String := "SuspendedEV"

/-- OCPP 1.6 constant `core.ChargePointStatusSuspendedEVSE`. -/
def ChargePointStatusSuspendedEVSE : String := "SuspendedEVSE"

/-- `core.StatusNotificationRequest` restricted to the fields the code
reads: `ConnectorId`, `Status` and the optional `Timestamp`. -/
structure StatusNotificationRequest where
  connectorId : Nat
  status : String
  timestamp : Option Int
deriving DecidableEq, Repr

/-- `types.MeterValue`: an optional batch timestamp plus sampled values. -/
structure MeterValue where
  timestamp : Option Int
  sampledValue : List SampledValue
deriving DecidableEq, Repr

/-- `core.MeterValuesRequest` restricted to the fields the code reads. -/
structure MeterValuesRequest where
  transactionId : Option Int
  meterValue : List MeterValue
deriving DecidableEq, Repr

/-- `core.StartTransactionRequest` restricted to the field the code reads
(`IdTag`). -/
structure StartTransactionRequest where
  idTag : String
deriving DecidableEq, Repr

/-- `types.IdTagInfo` restricted to the `Status` field. -/
structure IdTagInfo where
  status : String
deriving DecidableEq, Repr

/-- `core.StartTransactionConfirmation`. -/
structure StartTransactionConfirmation where
  idTagInfo : Option IdTagInfo
  transactionId : Int
deriving DecidableEq, Repr

/-- `core.StopTransactionConfirmation`. -/
structure StopTransactionConfirmation where
  idTagInfo : Option IdTagInfo
deriving DecidableEq, Repr

/-- The `Connector` state (part_000): held status, measurement map,
last accepted measurement timestamp, transaction bookkeeping, and the
close counter standing for the one-shot `statusC` channel.
`remoteIdTag` is carried for fidelity; the remote-start side channel it
feeds only emits an outbound command and mutates no modelled field. -/
structure Connector where
  status : Option StatusNotificationRequest
  statusCloses : Nat
  txnId : Int
  idTag : String
  measurements : Measurand → Option SampledValue
  meterUpdated : Int
  remoteIdTag : String

/-- A freshly created connector: no status yet, open `statusC`, no
transaction, empty measurement map, zero meter timestamp. -/
def initConnector : Connector where
  status := none
  statusCloses := 0
  txnId := 0
  idTag := ""
  measurements := fun _ => none
  meterUpdated := 0
  remoteIdTag := ""

/-- `Connector.timestampValid` (part_000 lines 12-25): reject expired
timestamps (`clock.Since(t) > Timeout`), accept when the held status has
no timestamp, otherwise reject values older than the held one.
The `none` branch for the held status mirrors the Go nil check
`conn.status.Timestamp == nil`; the handler only calls this when
`conn.status` is non-nil, so the outer `none` case is inert. -/
def Connector.timestampValid (conn : Connector) (now timeout t : Int) : Bool :=
  if timeout < now - t then false
  else
    match conn.status with
    | none => true
    | some st =>
      match st.timestamp with
      | none => true
      | some held => if t < held then false else true

/-- `Connector.OnStatusNotification` (part_000 lines 27-49).
First branch: no status held yet, store the request (even a nil one) and
close `statusC`. Otherwise accept when the request has no timestamp or
`timestampValid` holds; a nil request in this branch dereferences
`request.Timestamp` and panics (`none` result). The confirmation is
always the empty `StatusNotificationConfirmation` and carries no data, so
it is not returned; the `isWaitingForAuth` block only emits an outbound
remote-start command and mutates no modelled field. -/
def Connector.OnStatusNotification (conn : Connector)
    (req : Option StatusNotificationRequest) (now timeout : Int) :
    Option Connector :=
  match conn.status with
  | none =>
    some { conn with status := req, statusCloses := conn.statusCloses + 1 }
  | some _ =>
    match req with
    | none => none
    | some r =>
      match r.timestamp with
      | none => some { conn with status := some r }
      | some t =>
        if conn.timestampValid now timeout t then
          some { conn with status := some r }
        else
          some conn

/-- `getSampleKey` (part_000 lines 51-57): qualify the measurand by the
phase when one is present. -/
def getSampleKey (s : SampledValue) : Measurand :=
  if s.phase ≠ "" then s.measurand ++ "." ++ s.phase else s.measurand

/-- One iteration of the inner sample loop of `OnMeterValues`
(part_000 lines 87-99): trim the value, store it under its sample key and
set `meterUpdated` to the batch timestamp. -/
def applySample (ts : Int) (c : Connector) (s : SampledValue) : Connector :=
  let s2 : SampledValue := { s with value := s.value.trim }
  { c with
    measurements := fun k => if k = getSampleKey s2 then some s2 else c.measurements k
    meterUpdated := ts }

/-- One iteration of the outer batch loop of `OnMeterValues`
(part_000 lines 75-103): default a missing batch timestamp to the current
time, drop the batch when its timestamp is older than `meterUpdated`,
otherwise apply every sample. -/
def processMeterValue (now : Int) (c : Connector) (mv : MeterValue) : Connector :=
  let ts := mv.timestamp.getD now
  if ts < c.meterUpdated then c
  else mv.sampledValue.foldl (applySample ts) c

/-- Ordered insertion by batch age, the helper of `sortByAge`. -/
def insertByAge (now : Int) (mv : MeterValue) : List MeterValue → List MeterValue
  | [] => [mv]
  | x :: xs =>
    if mv.timestamp.getD now < x.timestamp.getD now then mv :: x :: xs
    else x :: insertByAge now mv xs

/-- Modelled from the spec: `sortByAge` is called by `OnMeterValues` but
its definition is not under src/. The spec says meter-value batches are
processed in ascending timestamp order, with a missing per-batch
timestamp defaulting to the current time; this is a sort by that
effective timestamp. -/
def sortByAge (now : Int) : List MeterValue → List MeterValue
  | [] => []
  | x :: xs => insertByAge now x (sortByAge now xs)

/-- The transaction recovery branch opening `Connector.OnMeterValues`
(part_000 lines 66-73): adopt the carried transaction id when it is
positive, no transaction is tracked, and the last known status is
Charging, SuspendedEV or SuspendedEVSE. -/
def Connector.recoverTxn (conn : Connector) (req : MeterValuesRequest) : Connector :=
  match req.transactionId, conn.status with
  | some tid, some st =>
    if 0 < tid ∧ conn.txnId = 0 ∧
        (st.status = ChargePointStatusCharging ∨
          st.status = ChargePointStatusSuspendedEV ∨
          st.status = ChargePointStatusSuspendedEVSE) then
      { conn with txnId := tid }
    else conn
  | _, _ => conn

/-- `Connector.OnMeterValues` (part_000 lines 59-104): opportunistic
transaction recovery, then the batch loop over the age-sorted batches.
The confirmation is always the empty `MeterValuesConfirmation` and is not
returned. -/
def Connector.OnMeterValues (conn : Connector) (req : MeterValuesRequest)
    (now : Int) : Connector :=
  (sortByAge now req.meterValue).foldl (processMeterValue now) (conn.recoverTxn req)

/-- The process-wide transaction sequencer (`instance.txnId`,
an `atomic.Int64` in instance.go). -/
structure Instance where
  txnId : Int
deriving DecidableEq, Repr

/-- The seeding line of `Start` (instance.go line 58):
`inst.txnId.Store(time.Now().UTC().Unix())`. The surrounding network
lifecycle is outside this embedding. -/
def startInstance (startTime : Int) : Instance where
  txnId := startTime

/-- `instance.txnId.Add(1)`: atomically increment and return the new
value. -/
def Instance.addTxn (inst : Instance) : Instance × Int :=
  ({ txnId := inst.txnId + 1 }, inst.txnId + 1)

/-- `Connector.OnStartTransaction` (part_000 lines 106-121): issue the
next id from the sequencer, record the tag, accept unconditionally. -/
def Connector.OnStartTransaction (conn : Connector) (inst : Instance)
    (req : StartTransactionRequest) :
    Connector × Instance × StartTransactionConfirmation :=
  let p := inst.addTxn
  ({ conn with txnId := p.2, idTag := req.idTag },
    p.1,
    { idTagInfo := some { status := AuthorizationStatusAccepted },
      transactionId := p.2 })

/-- A run of successive `OnStartTransaction` calls against one process
instance, returning the final sequencer state and the issued ids in call
order. -/
def runStartTransactions (inst : Instance) :
    List (Connector × StartTransactionRequest) → Instance × List Int
  | [] => (inst, [])
  | (c, r) :: rest =>
    let step := c.OnStartTransaction inst r
    let tail := runStartTransactions step.2.1 rest
    (tail.1, step.2.2.transactionId :: tail.2)

/-- The `types.SampledValue{Value: "0", Unit: u}` literal written by
`assumeMeterStopped`; the remaining fields are Go zero values. -/
def zeroSample (u : String) : SampledValue where
  value := "0"
  measurand := ""
  phase := ""
  unit := u

/-- One conditional zeroing step of `assumeMeterStopped`: overwrite `key`
with the zero sample of unit `u` only when `key` is present. -/
def zeroIfPresent (m : Measurand → Option SampledValue) (key : Measurand)
    (u : String) : Measurand → Option SampledValue :=
  match m key with
  | some _ => fun k => if k = key then some (zeroSample u) else m k
  | none => m

/-- Modelled from the spec: `getPhaseKey` is called by
`assumeMeterStopped` but its definition is not under src/. Per the data
model (a measurand optionally qualified by electrical phase, matching
the key scheme of `getSampleKey` and the `"-N"` suffix forming keys such as
`Power.Active.Import.L1-N`), it appends the `Ln` phase qualifier. -/
def getPhaseKey (key : Measurand) (phase : Nat) : Measurand :=
  key ++ ".L" ++ toString phase

/-- The key/unit pairs `assumeMeterStopped` zeroes, in the order of its
loops (part_000 lines 126-153): charger-wide active power, then per
phase the plain and `-N`-qualified phase powers and the phase current. -/
def stopKeys : List (Measurand × String) :=
  (MeasurandPowerActiveImport, UnitOfMeasureW) ::
    ([1, 2, 3].flatMap fun phase =>
      [(getPhaseKey MeasurandPowerActiveImport phase, UnitOfMeasureW),
        (getPhaseKey MeasurandPowerActiveImport phase ++ "-N", UnitOfMeasureW),
        (getPhaseKey MeasurandCurrentImport phase, UnitOfMeasureA)])

/-- `Connector.assumeMeterStopped` (part_000 lines 123-154): set
`meterUpdated` to the current time and zero every present key among
`stopKeys`. -/
def Connector.assumeMeterStopped (conn : Connector) (now : Int) : Connector :=
  { conn with
    meterUpdated := now
    measurements := stopKeys.foldl (fun m p => zeroIfPresent m p.1 p.2) conn.measurements }

/-- `Connector.OnStopTransaction` (part_000 lines 156-172): clear the
transaction id and tag, build the Accepted confirmation, apply the meter
stopped projection. The request argument is never read by the source. -/
def Connector.OnStopTransaction (conn : Connector) (now : Int) :
    Connector × StopTransactionConfirmation :=
  let c1 := { conn with txnId := 0, idTag := "" }
  (c1.assumeMeterStopped now,
    { idTagInfo := some { status := AuthorizationStatusAccepted } })

/-- The per-charger `registration` of cs_core.go: the provisional status
cache keyed by connector number. Connector ownership is not needed by
the claims about the dispatcher. -/
structure Registration where
  status : Nat → Option StatusNotificationRequest

/-- The dispatcher state of `CS` restricted to what
`CS.OnStatusNotification` touches: the registration map `regs` and the
attached logical charge points (`ChargepointByID` succeeds exactly when
`cps id` is `some`). One connectorwide charge point stands for the
delegation target. -/
structure CSState where
  regs : String → Option Registration
  cps : String → Option Connector

/-- `CS.OnStatusNotification` (cs_core.go lines 137-152): when a
registration exists and the request is non-nil, cache the request under
(charger id, connector number); then delegate to the charge point when
one is attached, else return the default confirmation. A `none` result
propagates a panic from the delegated connector handler. -/
def CS.OnStatusNotification (cs : CSState) (id : String)
    (req : Option StatusNotificationRequest) (now timeout : Int) :
    Option CSState :=
  let cs1 :=
    match cs.regs id, req with
    | some reg, some r =>
      { cs with
        regs := fun i =>
          if i = id then
            some { reg with
              status := fun c => if c = r.connectorId then some r else reg.status c }
          else cs.regs i }
    | _, _ => cs
  match cs1.cps id with
  | some conn =>
    match conn.OnStatusNotification req now timeout with
    | some conn2 =>
      some { cs1 with cps := fun i => if i = id then some conn2 else cs1.cps i }
    | none => none
  | none => some cs1

/-- A decoded JSON value as far as `meterParseMasterplug` discriminates
the Go `any` type: a number, a string, or anything else (bool, null, array,
object). Numbers are modelled exactly as rationals; the float64 rounding
of `encoding/json` is irrelevant to the claims, which only involve the
zero value. -/
inductive JsonVal where
  | num (q : Rat)
  | str (s : String)
  | other
deriving DecidableEq, Repr

/-- Go map lookup on the decoded `map[string]any` object (keys of a
decoded JSON object are unique). -/
def lookupField (obj : List (String × JsonVal)) (key : String) : Option JsonVal :=
  (obj.find? fun p => p.1 = key).map fun p => p.2

/-- The numeric-string branch of `meterParseMasterplug`:
`json.Unmarshal([]byte("\""+t+"\""), &tmp)` with `tmp float64`. The
document built this way starts with a quotation mark, so it is either a
JSON string or invalid JSON; `encoding/json` never decodes a JSON string
into a `float64` target (it fails with an UnmarshalTypeError), so this
parse fails for every input string and the branch never assigns. -/
def parseNumericString (_s : String) : Option Rat := none

/-- Field extraction of `meterParseMasterplug` (cs_core.go lines 79-100):
a JSON number is taken as is; a JSON string goes through the (always
failing) numeric-string parse; anything else leaves the Go zero value 0. -/
def extractNum (obj : List (String × JsonVal)) (key : String) : Rat :=
  match lookupField obj key with
  | some (JsonVal.num q) => q
  | some (JsonVal.str s) =>
    match parseNumericString s with
    | some q => q
    | none => 0
  | some JsonVal.other => 0
  | none => 0

/-- `meterParseMasterplug` (cs_core.go lines 71-117). The argument is the
result of decoding the payload bytes into `map[string]any`: `none` when
the payload is not a string holding a valid JSON object (that first
`json.Unmarshal` fails), `some obj` otherwise. Extract the two fields,
fail with `no values` when both are zero, then apply the milli-unit
heuristic (divide by 1000 above 100 A resp. 1000 V). -/
def meterParseMasterplug (data : Option (List (String × JsonVal))) :
    Except String (Rat × Rat) :=
  match data with
  | none => Except.error "unmarshal"
  | some obj =>
    let curVal := extractNum obj "current"
    let voltVal := extractNum obj "voltage"
    if curVal = 0 ∧ voltVal = 0 then Except.error "no values"
    else
      Except.ok
        (if 100 < curVal then curVal / 1000 else curVal,
          if 1000 < voltVal then voltVal / 1000 else voltVal)

/-- The state of one `OCPPDataTransferMeter` sink instance
(part_001). -/
structure MeterState where
  current : Rat
  voltage : Rat
deriving DecidableEq, Repr

/-- `meter.Update` (part_001 lines 52-69): write current and voltage to
the instance registered under the charge point id, when any, and to the
wildcard instance registered under `""`, when any. -/
def Meter.Update (instances : String → Option MeterState) (chargePoint : String)
    (current voltage : Rat) : String → Option MeterState :=
  let m1 : String → Option MeterState :=
    match instances chargePoint with
    | some _ =>
      fun k => if k = chargePoint then some { current := current, voltage := voltage }
        else instances k
    | none => instances
  match m1 "" with
  | some _ =>
    fun k => if k = "" then some { current := current, voltage := voltage } else m1 k
  | none => m1

/-- `core.DataTransferRequest` restricted to the fields the code reads.
`data` models `request.Data` after the string type assertion and the
JSON object decode: `none` when `Data` is not a string holding a valid
JSON object, `some obj` for the decoded object. -/
structure DataTransferRequest where
  vendorId : String
  messageId : String
  data : Option (List (String × JsonVal))

/-- `CS.OnDataTransfer` (cs_core.go lines 42-68): on the recognized
MasterPlug vendor/message pair, parse the payload and on success push
exactly one sink update for the charger identity; always answer
Accepted. Returns the new sink state, the list of performed
`meter.Update` calls and the response status. -/
def CS.OnDataTransfer (instances : String → Option MeterState) (id : String)
    (req : Option DataTransferRequest) :
    (String → Option MeterState) × List (String × Rat × Rat) × String :=
  match req with
  | none => (instances, [], DataTransferStatusAccepted)
  | some r =>
    if r.vendorId = "MasterPlug" ∧ r.messageId = "GetCTClampValue" then
      match meterParseMasterplug r.data with
      | Except.ok (cur, volt) =>
        (Meter.Update instances id cur volt, [(id, cur, volt)], DataTransferStatusAccepted)
      | Except.error _ => (instances, [], DataTransferStatusAccepted)
    else (instances, [], DataTransferStatusAccepted)

/-- The timestamp of the held status, when both exist. -/
def heldTs (c : Connector) : Option Int :=
  c.status.bind fun st => st.timestamp

/-- A run of successive `OnStatusNotification` calls, each with its own
request and clock reading; `none` propagates a panic. -/
def runStatus (timeout : Int) (c : Connector) :
    List (Option StatusNotificationRequest × Int) → Option Connector
  | [] => some c
  | (req, now) :: rest =>
    match c.OnStatusNotification req now timeout with
    | some c2 => runStatus timeout c2 rest
    | none => none

/-- A run of successive `OnMeterValues` calls, each with its own request
and clock reading. -/
def runMeterValues (c : Connector) : List (MeterValuesRequest × Int) → Connector
  | [] => c
  | (req, now) :: rest => runMeterValues (c.OnMeterValues req now) rest

/-! Helper lemmas about the meter value loop. -/

theorem applySample_txnId (ts : Int) (c : Connector) (s : SampledValue) :
    (applySample ts c s).txnId = c.txnId := rfl

theorem applySample_meterUpdated (ts : Int) (c : Connector) (s : SampledValue) :
    (applySample ts c s).meterUpdated = ts := rfl

theorem foldl_applySample_txnId (ts : Int) (l : List SampledValue) :
    ∀ c : Connector, (l.foldl (applySample ts) c).txnId = c.txnId := by
  induction l with
  | nil => intro c; rfl
  | cons s rest ih =>
    intro c
    exact (ih (applySample ts c s)).trans (applySample_txnId ts c s)

theorem foldl_applySample_meterUpdated (ts : Int) (l : List SampledValue) :
    ∀ c : Connector,
      (l.foldl (applySample ts) c).meterUpdated = c.meterUpdated ∨
        (l.foldl (applySample ts) c).meterUpdated = ts := by
  induction l with
  | nil => intro c; exact Or.inl rfl
  | cons s rest ih =>
    intro c
    rcases ih (applySample ts c s) with h | h
    · exact Or.inr (h.trans (applySample_meterUpdated ts c s))
    · exact Or.inr h

theorem foldl_applySample_measurements (ts : Int) (l : List SampledValue) :
    ∀ c : Connector, ∀ k : Measurand,
      (l.foldl (applySample ts) c).measurements k ≠ c.measurements k →
        ∃ s ∈ l, getSampleKey { s with value := s.value.trim } = k := by
  induction l with
  | nil => intro c k h; exact absurd rfl h
  | cons s rest ih =>
    intro c k h
    by_cases hk : (applySample ts c s).measurements k = c.measurements k
    · have h2 : (rest.foldl (applySample ts) (applySample ts c s)).measurements k ≠
          (applySample ts c s).measurements k := fun he => h (he.trans hk)
      obtain ⟨s2, hs2, hkey⟩ := ih (applySample ts c s) k h2
      exact ⟨s2, List.mem_cons_of_mem _ hs2, hkey⟩
    · have hkey : k = getSampleKey { s with value := s.value.trim } := by
        by_contra hne
        exact hk (by simp [applySample, hne])
      exact ⟨s, List.mem_cons_self _ _, hkey.symm⟩

theorem processMeterValue_txnId (now : Int) (c : Connector) (mv : MeterValue) :
    (processMeterValue now c mv).txnId = c.txnId := by
  simp only [processMeterValue]
  split
  · rfl
  · exact foldl_applySample_txnId _ _ c

theorem processMeterValue_skip (now : Int) (c : Connector) (mv : MeterValue)
    (h : mv.timestamp.getD now < c.meterUpdated) :
    processMeterValue now c mv = c := by
  simp only [processMeterValue]
  rw [if_pos h]

theorem processMeterValue_mu_mono (now : Int) (c : Connector) (mv : MeterValue) :
    c.meterUpdated ≤ (processMeterValue now c mv).meterUpdated := by
  rcases lt_or_ge (mv.timestamp.getD now) c.meterUpdated with hlt | hge
  · rw [processMeterValue_skip now c mv hlt]
  · have heq : processMeterValue now c mv =
        mv.sampledValue.foldl (applySample (mv.timestamp.getD now)) c := by
      simp only [processMeterValue]
      rw [if_neg (not_lt.mpr hge)]
    rw [heq]
    rcases foldl_applySample_meterUpdated (mv.timestamp.getD now) mv.sampledValue c with h | h
    · rw [h]
    · rw [h]; exact hge

theorem processMeterValue_change (now : Int) (c : Connector) (mv : MeterValue)
    (k : Measurand)
    (h : (processMeterValue now c mv).measurements k ≠ c.measurements k) :
    c.meterUpdated ≤ mv.timestamp.getD now ∧
      ∃ s ∈ mv.sampledValue, getSampleKey { s with value := s.value.trim } = k := by
  rcases lt_or_ge (mv.timestamp.getD now) c.meterUpdated with hlt | hge
  · rw [processMeterValue_skip now c mv hlt] at h
    exact absurd rfl h
  · refine ⟨hge, ?_⟩
    have heq : processMeterValue now c mv =
        mv.sampledValue.foldl (applySample (mv.timestamp.getD now)) c := by
      simp only [processMeterValue]
      rw [if_neg (not_lt.mpr hge)]
    rw [heq] at h
    exact foldl_applySample_measurements _ _ c k h

theorem foldl_pm_txnId (now : Int) (l : List MeterValue) :
    ∀ c : Connector, (l.foldl (processMeterValue now) c).txnId = c.txnId := by
  induction l with
  | nil => intro c; rfl
  | cons mv rest ih =>
    intro c
    exact (ih (processMeterValue now c mv)).trans (processMeterValue_txnId now c mv)

theorem foldl_pm_mu_mono (now : Int) (l : List MeterValue) :
    ∀ c : Connector, c.meterUpdated ≤ (l.foldl (processMeterValue now) c).meterUpdated := by
  induction l with
  | nil => intro c; exact le_refl _
  | cons mv rest ih =>
    intro c
    exact le_trans (processMeterValue_mu_mono now c mv) (ih _)

theorem foldl_pm_change (now : Int) (l : List MeterValue) :
    ∀ c : Connector, ∀ k : Measurand,
      (l.foldl (processMeterValue now) c).measurements k ≠ c.measurements k →
        ∃ mv ∈ l, c.meterUpdated ≤ mv.timestamp.getD now ∧
          ∃ s ∈ mv.sampledValue, getSampleKey { s with value := s.value.trim } = k := by
  induction l with
  | nil => intro c k h; exact absurd rfl h
  | cons mv rest ih =>
    intro c k h
    by_cases hk : (processMeterValue now c mv).measurements k = c.measurements k
    · have h2 : (rest.foldl (processMeterValue now) (processMeterValue now c mv)).measurements k ≠
          (processMeterValue now c mv).measurements k := fun he => h (he.trans hk)
      obtain ⟨mv2, hmem, hts, hs⟩ := ih (processMeterValue now c mv) k h2
      exact ⟨mv2, List.mem_cons_of_mem _ hmem,
        le_trans (processMeterValue_mu_mono now c mv) hts, hs⟩
    · obtain ⟨hts, hs⟩ := processMeterValue_change now c mv k hk
      exact ⟨mv, List.mem_cons_self _ _, hts, hs⟩

theorem mem_insertByAge (now : Int) (mv x : MeterValue) (l : List MeterValue)
    (h : x ∈ insertByAge now mv l) : x = mv ∨ x ∈ l := by
  induction l with
  | nil => simpa [insertByAge] using h
  | cons y ys ih =>
    simp only [insertByAge] at h
    split at h
    · exact List.mem_cons.mp h
    · rcases List.mem_cons.mp h with h1 | h2
      · exact Or.inr (h1 ▸ List.mem_cons_self _ _)
      · rcases ih h2 with h3 | h4
        · exact Or.inl h3
        · exact Or.inr (List.mem_cons_of_mem _ h4)

theorem mem_sortByAge (now : Int) (l : List MeterValue) (x : MeterValue)
    (h : x ∈ sortByAge now l) : x ∈ l := by
  induction l with
  | nil => simp [sortByAge] at h
  | cons y ys ih =>
    simp only [sortByAge] at h
    rcases mem_insertByAge now y x _ h with h1 | h2
    · exact h1 ▸ List.mem_cons_self _ _
    · exact List.mem_cons_of_mem _ (ih h2)

theorem recoverTxn_measurements (conn : Connector) (req : MeterValuesRequest) :
    (conn.recoverTxn req).measurements = conn.measurements := by
  unfold Connector.recoverTxn
  split
  · split <;> rfl
  · rfl

theorem recoverTxn_meterUpdated (conn : Connector) (req : MeterValuesRequest) :
    (conn.recoverTxn req).meterUpdated = conn.meterUpdated := by
  unfold Connector.recoverTxn
  split
  · split <;> rfl
  · rfl

theorem onMeterValues_mu_mono (conn : Connector) (req : MeterValuesRequest) (now : Int) :
    conn.meterUpdated ≤ (conn.OnMeterValues req now).meterUpdated := by
  have h := foldl_pm_mu_mono now (sortByAge now req.meterValue) (conn.recoverTxn req)
  rw [recoverTxn_meterUpdated] at h
  exact h

theorem runMeterValues_mu_mono (calls : List (MeterValuesRequest × Int)) :
    ∀ c : Connector, c.meterUpdated ≤ (runMeterValues c calls).meterUpdated := by
  induction calls with
  | nil => intro c; exact le_refl _
  | cons p rest ih =>
    intro c
    exact le_trans (onMeterValues_mu_mono c p.1 p.2) (ih _)

/-- C1: for every `Connector.OnMeterValues` call, the stored sample of a
measurement key is only overwritten from a batch whose (defaulted)
timestamp is at least the last accepted measurement
timestamp; a batch older than `meterUpdated` leaves the whole connector
state unchanged; and `meterUpdated` is monotonically non-decreasing both
within one call and across any sequence of calls, independent of batch
order inside the request. -/
theorem C1_meter_state_moves_forward (conn : Connector) (req : MeterValuesRequest)
    (now : Int) :
    conn.meterUpdated ≤ (conn.OnMeterValues req now).meterUpdated ∧
    (∀ c : Connector, ∀ mv : MeterValue,
      mv.timestamp.getD now < c.meterUpdated → processMeterValue now c mv = c) ∧
    (∀ k : Measurand,
      (conn.OnMeterValues req now).measurements k ≠ conn.measurements k →
        ∃ mv ∈ req.meterValue, conn.meterUpdated ≤ mv.timestamp.getD now ∧
          ∃ s ∈ mv.sampledValue, getSampleKey { s with value := s.value.trim } = k) ∧
    (∀ calls : List (MeterValuesRequest × Int),
      conn.meterUpdated ≤ (runMeterValues conn calls).meterUpdated) := by
  refine ⟨onMeterValues_mu_mono conn req now, ?_, ?_, ?_⟩
  · exact fun c mv h => processMeterValue_skip now c mv h
  · intro k h
    have hm : ((sortByAge now req.meterValue).foldl (processMeterValue now)
        (conn.recoverTxn req)).measurements k ≠ (conn.recoverTxn req).measurements k := by
      rw [recoverTxn_measurements]
      exact h
    obtain ⟨mv, hmem, hts, hs⟩ :=
      foldl_pm_change now (sortByAge now req.meterValue) (conn.recoverTxn req) k hm
    rw [recoverTxn_meterUpdated] at hts
    exact ⟨mv, mem_sortByAge now _ mv hmem, hts, hs⟩
  · exact fun calls => runMeterValues_mu_mono calls conn

/-- A sample carrying charger-wide active power, used in concrete runs. -/
def samplePower : SampledValue where
  value := "7"
  measurand := MeasurandPowerActiveImport
  phase := ""
  unit := UnitOfMeasureW

/-- A one-batch meter values request with timestamp 5, used in concrete
runs. -/
def mvReqDemo : MeterValuesRequest where
  transactionId := none
  meterValue := [{ timestamp := some 5, sampledValue := [samplePower] }]

theorem C1_meter_state_moves_forward_witness :
    initConnector.meterUpdated ≤ (initConnector.OnMeterValues mvReqDemo 0).meterUpdated ∧
    (∃ mv ∈ mvReqDemo.meterValue, initConnector.meterUpdated ≤ mv.timestamp.getD 0 ∧
      ∃ s ∈ mv.sampledValue,
        getSampleKey { s with value := s.value.trim } = MeasurandPowerActiveImport) := by
  have h := C1_meter_state_moves_forward initConnector mvReqDemo 0
  refine ⟨h.1, h.2.2.1 MeasurandPowerActiveImport ?_⟩
  decide

/-- C6: `Connector.OnMeterValues` adopts a positive carried transaction
id exactly when no transaction is tracked and the last known status is
Charging, SuspendedEV or SuspendedEVSE; in every other case (transaction
already tracked, no prior status, other status, no or non-positive
carried id) the call leaves `txnId` unchanged. -/
theorem C6_txn_recovery (conn : Connector) (req : MeterValuesRequest) (now : Int) :
    (∀ tid : Int, ∀ st : StatusNotificationRequest,
      req.transactionId = some tid → 0 < tid → conn.txnId = 0 →
      conn.status = some st →
      (st.status = ChargePointStatusCharging ∨
        st.status = ChargePointStatusSuspendedEV ∨
        st.status = ChargePointStatusSuspendedEVSE) →
      (conn.OnMeterValues req now).txnId = tid) ∧
    (conn.txnId ≠ 0 → (conn.OnMeterValues req now).txnId = conn.txnId) ∧
    (conn.status = none → (conn.OnMeterValues req now).txnId = conn.txnId) ∧
    (∀ st : StatusNotificationRequest, conn.status = some st →
      ¬(st.status = ChargePointStatusCharging ∨
        st.status = ChargePointStatusSuspendedEV ∨
        st.status = ChargePointStatusSuspendedEVSE) →
      (conn.OnMeterValues req now).txnId = conn.txnId) ∧
    (req.transactionId = none → (conn.OnMeterValues req now).txnId = conn.txnId) ∧
    (∀ tid : Int, req.transactionId = some tid → ¬0 < tid →
      (conn.OnMeterValues req now).txnId = conn.txnId) := by
  have hfold : (conn.OnMeterValues req now).txnId = (conn.recoverTxn req).txnId :=
    foldl_pm_txnId now (sortByAge now req.meterValue) (conn.recoverTxn req)
  refine ⟨?_, ?_, ?_, ?_, ?_, ?_⟩
  · intro tid st h1 h2 h3 h4 h5
    rw [hfold]
    simp only [Connector.recoverTxn, h1, h4]
    rw [if_pos ⟨h2, h3, h5⟩]
  · intro hne
    rw [hfold]
    cases h1 : req.transactionId with
    | none =>
      cases h4 : conn.status <;> simp only [Connector.recoverTxn, h1, h4]
    | some tid =>
      cases h4 : conn.status with
      | none => simp only [Connector.recoverTxn, h1, h4]
      | some st =>
        simp only [Connector.recoverTxn, h1, h4]
        rw [if_neg (fun hc => hne hc.2.1)]
  · intro h4
    rw [hfold]
    cases h1 : req.transactionId <;> simp only [Connector.recoverTxn, h1, h4]
  · intro st h4 hns
    rw [hfold]
    cases h1 : req.transactionId with
    | none => simp only [Connector.recoverTxn, h1, h4]
    | some tid =>
      simp only [Connector.recoverTxn, h1, h4]
      rw [if_neg (fun hc => hns hc.2.2)]
  · intro h1
    rw [hfold]
    cases h4 : conn.status <;> simp only [Connector.recoverTxn, h1, h4]
  · intro tid h1 hpos
    rw [hfold]
    cases h4 : conn.status with
    | none => simp only [Connector.recoverTxn, h1, h4]
    | some st =>
      simp only [Connector.recoverTxn, h1, h4]
      rw [if_neg (fun hc => hpos hc.1)]

/-- A status notification reporting Charging at timestamp 3. -/
def stReqCharging : StatusNotificationRequest where
  connectorId := 1
  status := ChargePointStatusCharging
  timestamp := some 3

/-- A connector whose last known status is Charging and which tracks no
transaction. -/
def chargingConn : Connector :=
  { initConnector with status := some stReqCharging }

theorem C6_txn_recovery_witness :
    (chargingConn.OnMeterValues { transactionId := some 17, meterValue := [] } 0).txnId = 17 := by
  have h := (C6_txn_recovery chargingConn { transactionId := some 17, meterValue := [] } 0).1
  exact h 17 stReqCharging rfl (by decide) rfl rfl (Or.inl rfl)

/-! Helper lemmas about the transaction sequencer. -/

theorem runStartTransactions_length (calls : List (Connector × StartTransactionRequest)) :
    ∀ inst : Instance, (runStartTransactions inst calls).2.length = calls.length := by
  induction calls with
  | nil => intro inst; rfl
  | cons p rest ih =>
    intro inst
    cases p with
    | mk c r => simpa [runStartTransactions] using ih _

theorem runStartTransactions_get (calls : List (Connector × StartTransactionRequest)) :
    ∀ (inst : Instance) (i : Nat) (h : i < (runStartTransactions inst calls).2.length),
      (runStartTransactions inst calls).2.get ⟨i, h⟩ = inst.txnId + i + 1 := by
  induction calls with
  | nil =>
    intro inst i h
    simp [runStartTransactions] at h
  | cons p rest ih =>
    intro inst i h
    cases p with
    | mk c r =>
      cases i with
      | zero =>
        simp [runStartTransactions, Connector.OnStartTransaction, Instance.addTxn]
      | succ n =>
        have hn : n < (runStartTransactions { txnId := inst.txnId + 1 } rest).2.length := by
          rw [runStartTransactions_length ((c, r) :: rest) inst] at h
          rw [runStartTransactions_length rest { txnId := inst.txnId + 1 }]
          simp only [List.length_cons] at h
          omega
        have hrec := ih { txnId := inst.txnId + 1 } n hn
        simp only [runStartTransactions, Connector.OnStartTransaction, Instance.addTxn,
          List.get_cons_succ]
        rw [hrec]
        push_cast
        ring

/-- C5: across any sequence of `Connector.OnStartTransaction` calls
against one process instance, every issued transaction id is strictly
greater than every previously issued one, and the id of the k-th call is
the startup seed (the UTC unix timestamp stored by `Start`) plus k plus
one, i.e. the ids come from the atomically incremented counter seeded at
process start. -/
theorem C5_txn_ids_strictly_increasing (seed : Int)
    (calls : List (Connector × StartTransactionRequest)) (i j : Nat)
    (hj : j < (runStartTransactions (startInstance seed) calls).2.length)
    (hij : i < j) :
    (runStartTransactions (startInstance seed) calls).2.get ⟨i, lt_trans hij hj⟩ <
      (runStartTransactions (startInstance seed) calls).2.get ⟨j, hj⟩ ∧
    (runStartTransactions (startInstance seed) calls).2.get ⟨j, hj⟩ = seed + j + 1 := by
  rw [runStartTransactions_get calls (startInstance seed) i (lt_trans hij hj),
    runStartTransactions_get calls (startInstance seed) j hj]
  constructor
  · simp only [startInstance]
    omega
  · rfl

/-- Two start-transaction calls against one instance, used in concrete
runs. -/
def startCallsDemo : List (Connector × StartTransactionRequest) :=
  [(initConnector, { idTag := "tagA" }), (initConnector, { idTag := "tagB" })]

theorem C5_txn_ids_strictly_increasing_witness :
    (runStartTransactions (startInstance 1000) startCallsDemo).2.get
        ⟨0, by rw [runStartTransactions_length]; decide⟩ <
      (runStartTransactions (startInstance 1000) startCallsDemo).2.get
        ⟨1, by rw [runStartTransactions_length]; decide⟩ ∧
    (runStartTransactions (startInstance 1000) startCallsDemo).2.get
        ⟨1, by rw [runStartTransactions_length]; decide⟩ = 1000 + (1 : Nat) + 1 := by
  exact C5_txn_ids_strictly_increasing 1000 startCallsDemo 0 1
    (by rw [runStartTransactions_length]; decide) (by decide)

/-! Helper lemmas about the meter stopped projection. -/

theorem zeroIfPresent_ne (m : Measurand → Option SampledValue) (key : Measurand)
    (u : String) (k : Measurand) (h : k ≠ key) :
    zeroIfPresent m key u k = m k := by
  unfold zeroIfPresent
  cases hm : m key with
  | some s => simp [h]
  | none => rfl

theorem zeroIfPresent_self (m : Measurand → Option SampledValue) (key : Measurand)
    (u : String) (h : (m key).isSome) :
    zeroIfPresent m key u key = some (zeroSample u) := by
  unfold zeroIfPresent
  cases hm : m key with
  | some s => simp
  | none => rw [hm] at h; simp at h

theorem zeroIfPresent_isSome (m : Measurand → Option SampledValue) (key : Measurand)
    (u : String) (k : Measurand) :
    (zeroIfPresent m key u k).isSome = (m k).isSome := by
  unfold zeroIfPresent
  cases hm : m key with
  | none => rfl
  | some s =>
    by_cases h : k = key
    · subst h; simp [hm]
    · simp [h]

/-- The unit attached to the last pair in the list carrying the given
key, when one exists. -/
def lastUnit (k : Measurand) : List (Measurand × String) → Option String
  | [] => none
  | p :: rest =>
    match lastUnit k rest with
    | some u => some u
    | none => if p.1 = k then some p.2 else none

theorem foldl_zero_char (L : List (Measurand × String)) :
    ∀ (m : Measurand → Option SampledValue) (k : Measurand),
      (L.foldl (fun m p => zeroIfPresent m p.1 p.2) m) k =
        match lastUnit k L with
        | some u => if (m k).isSome then some (zeroSample u) else none
        | none => m k := by
  induction L with
  | nil => intro m k; rfl
  | cons p rest ih =>
    intro m k
    rw [List.foldl_cons, ih (zeroIfPresent m p.1 p.2) k]
    cases hrest : lastUnit k rest with
    | some u =>
      simp only [lastUnit, hrest, zeroIfPresent_isSome]
    | none =>
      by_cases hk : p.1 = k
      · subst hk
        simp only [lastUnit, hrest, if_pos rfl]
        cases hm : m p.1 with
        | some s =>
          rw [zeroIfPresent_self m p.1 p.2 (by rw [hm]; rfl)]
          simp [hm]
        | none =>
          unfold zeroIfPresent
          rw [hm]
          simp [hm]
      · simp only [lastUnit, hrest, if_neg hk]
        exact zeroIfPresent_ne m p.1 p.2 k (fun he => hk he.symm)

theorem assumeMeterStopped_char (conn : Connector) (now : Int) (k : Measurand) :
    (conn.assumeMeterStopped now).measurements k =
      match lastUnit k stopKeys with
      | some u => if (conn.measurements k).isSome then some (zeroSample u) else none
      | none => conn.measurements k :=
  foldl_zero_char stopKeys conn.measurements k

theorem onStop_measurements (conn : Connector) (now : Int) (k : Measurand) :
    (conn.OnStopTransaction now).1.measurements k =
      match lastUnit k stopKeys with
      | some u => if (conn.measurements k).isSome then some (zeroSample u) else none
      | none => conn.measurements k :=
  assumeMeterStopped_char { conn with txnId := 0, idTag := "" } now k

/-- C4: after `Connector.OnStopTransaction`, `txnId` is 0 and `idTag`
empty; every key among charger-wide active power, the per-phase active
powers L1-L3 with their `-N` variants and the per-phase currents L1-L3
that was present before now holds value `0` with the matching unit W or
A; keys absent before stay absent; and the confirmation status is
Accepted. The first conjunct pins the zeroed key set to exactly those
measurands. -/
theorem C4_stop_zeroes_measurements (conn : Connector) (now : Int) :
    stopKeys = [("Power.Active.Import", "W"),
      ("Power.Active.Import.L1", "W"), ("Power.Active.Import.L1-N", "W"),
      ("Current.Import.L1", "A"),
      ("Power.Active.Import.L2", "W"), ("Power.Active.Import.L2-N", "W"),
      ("Current.Import.L2", "A"),
      ("Power.Active.Import.L3", "W"), ("Power.Active.Import.L3-N", "W"),
      ("Current.Import.L3", "A")] ∧
    (conn.OnStopTransaction now).1.txnId = 0 ∧
    (conn.OnStopTransaction now).1.idTag = "" ∧
    (∀ p ∈ stopKeys, (conn.measurements p.1).isSome →
      (conn.OnStopTransaction now).1.measurements p.1 = some (zeroSample p.2)) ∧
    (∀ k : Measurand, conn.measurements k = none →
      (conn.OnStopTransaction now).1.measurements k = none) ∧
    (conn.OnStopTransaction now).2 =
      { idTagInfo := some { status := AuthorizationStatusAccepted } } := by
  refine ⟨by decide, rfl, rfl, ?_, ?_, rfl⟩
  · intro p hp hsome
    have hlast : lastUnit p.1 stopKeys = some p.2 := by
      rw [show stopKeys = [("Power.Active.Import", "W"),
        ("Power.Active.Import.L1", "W"), ("Power.Active.Import.L1-N", "W"),
        ("Current.Import.L1", "A"),
        ("Power.Active.Import.L2", "W"), ("Power.Active.Import.L2-N", "W"),
        ("Current.Import.L2", "A"),
        ("Power.Active.Import.L3", "W"), ("Power.Active.Import.L3-N", "W"),
        ("Current.Import.L3", "A")] from by decide] at hp
      fin_cases hp <;> decide
    rw [onStop_measurements conn now p.1, hlast]
    simp [hsome]
  · intro k h
    rw [onStop_measurements conn now k]
    cases hl : lastUnit k stopKeys with
    | none => exact h
    | some u => simp [h]

/-- A connector holding one charger-wide active power measurement, used
in concrete runs. -/
def stopDemoConn : Connector :=
  { initConnector with
    measurements := fun k =>
      if k = MeasurandPowerActiveImport then some samplePower else none }

theorem C4_stop_zeroes_measurements_witness :
    (stopDemoConn.OnStopTransaction 5).1.measurements MeasurandPowerActiveImport =
      some (zeroSample UnitOfMeasureW) ∧
    (stopDemoConn.OnStopTransaction 5).1.measurements "Current.Import.L1" = none := by
  have h := C4_stop_zeroes_measurements stopDemoConn 5
  refine ⟨?_, ?_⟩
  · exact h.2.2.2.1 (MeasurandPowerActiveImport, UnitOfMeasureW) (by decide) (by decide)
  · exact h.2.2.2.2.1 "Current.Import.L1" (by decide)

/-- C8: `Connector.OnStopTransaction` is idempotent: a second call right
after a first leaves `txnId` at 0 and `idTag` empty, keeps every
stored value of every measurement key (hence the key set) exactly as after the
first call, and returns the same Accepted confirmation. -/
theorem C8_stop_idempotent (conn : Connector) (now1 now2 : Int) :
    ((conn.OnStopTransaction now1).1.OnStopTransaction now2).1.txnId = 0 ∧
    ((conn.OnStopTransaction now1).1.OnStopTransaction now2).1.idTag = "" ∧
    (∀ k : Measurand,
      ((conn.OnStopTransaction now1).1.OnStopTransaction now2).1.measurements k =
        (conn.OnStopTransaction now1).1.measurements k) ∧
    ((conn.OnStopTransaction now1).1.OnStopTransaction now2).2 =
      (conn.OnStopTransaction now1).2 ∧
    (conn.OnStopTransaction now1).2.idTagInfo =
      some { status := AuthorizationStatusAccepted } := by
  refine ⟨rfl, rfl, ?_, rfl, rfl⟩
  intro k
  rw [onStop_measurements (conn.OnStopTransaction now1).1 now2 k]
  cases hl : lastUnit k stopKeys with
  | none => rfl
  | some u =>
    rw [onStop_measurements conn now1 k, hl]
    by_cases hs : (conn.measurements k).isSome
    · simp [hs]
    · simp [hs]

/-- A status notification at timestamp 10. -/
def stReq10 : StatusNotificationRequest where
  connectorId := 1
  status := "Available"
  timestamp := some 10

/-- A status notification without a timestamp. -/
def stReqNoTs : StatusNotificationRequest where
  connectorId := 1
  status := "Available"
  timestamp := none

/-- A status notification at timestamp 5. -/
def stReq5 : StatusNotificationRequest where
  connectorId := 1
  status := "Available"
  timestamp := some 5

/-- C2 counterexample: the held status timestamp is not monotonically
non-decreasing over every call sequence. From a fresh connector, accept
timestamp 10, then a report without a timestamp (accepted
unconditionally, clearing the held timestamp), then timestamp 5 (fresh
and accepted because the held status has no timestamp): the held
timestamp after the third call, 5, is below the one after the first
call, 10, and the third call is not the first. -/
theorem C2_counterexample :
    (runStatus 1000 initConnector [(some stReq10, 10)]).map heldTs = some (some 10) ∧
    (runStatus 1000 initConnector
      [(some stReq10, 10), (some stReqNoTs, 10), (some stReq5, 10)]).map heldTs =
      some (some 5) ∧
    (5 : Int) < 10 := by
  decide

/-- C2 amended: when the connector already holds a status carrying a
timestamp, any non-panicking `OnStatusNotification` call that leaves a
status carrying a timestamp can only move that timestamp forward.
Monotonicity thus holds whenever no timestampless status is stored in
between; a request without a timestamp is always accepted and clears the
held timestamp, resetting the baseline (and the very first call is
always accepted regardless of timestamp). -/
theorem C2_status_ts_monotone (conn conn2 : Connector)
    (req : Option StatusNotificationRequest) (now timeout a b : Int)
    (ha : heldTs conn = some a)
    (hstep : conn.OnStatusNotification req now timeout = some conn2)
    (hb : heldTs conn2 = some b) : a ≤ b := by
  obtain ⟨st, hst, hts⟩ : ∃ st, conn.status = some st ∧ st.timestamp = some a := by
    unfold heldTs at ha
    cases hs : conn.status with
    | none => rw [hs] at ha; simp at ha
    | some st => rw [hs] at ha; exact ⟨st, rfl, ha⟩
  unfold Connector.OnStatusNotification at hstep
  simp only [hst] at hstep
  cases req with
  | none => simp at hstep
  | some r =>
    cases hrt : r.timestamp with
    | none =>
      simp only [hrt] at hstep
      simp at hstep
      rw [← hstep] at hb
      unfold heldTs at hb
      simp [hrt] at hb
    | some t =>
      simp only [hrt] at hstep
      by_cases hv : conn.timestampValid now timeout t
      · rw [if_pos hv] at hstep
        simp at hstep
        rw [← hstep] at hb
        unfold heldTs at hb
        simp [hrt] at hb
        subst hb
        unfold Connector.timestampValid at hv
        simp only [hst, hts] at hv
        by_cases hexp : timeout < now - t
        · rw [if_pos hexp] at hv
          simp at hv
        · rw [if_neg hexp] at hv
          by_cases hlt : t < a
          · rw [if_pos hlt] at hv
            simp at hv
          · omega
      · rw [if_neg hv] at hstep
        simp at hstep
        rw [← hstep] at hb
        rw [ha] at hb
        exact le_of_eq (Option.some.inj hb)

/-- A status notification at timestamp 12. -/
def stReq12 : StatusNotificationRequest where
  connectorId := 1
  status := "Available"
  timestamp := some 12

/-- A connector holding the timestamp-10 status. -/
def connHeld10 : Connector :=
  { initConnector with status := some stReq10 }

theorem C2_status_ts_monotone_witness :
    heldTs connHeld10 = some 10 ∧
    connHeld10.OnStatusNotification (some stReq12) 12 1000 =
      some { connHeld10 with status := some stReq12 } ∧
    (10 : Int) ≤ 12 := by
  refine ⟨rfl, rfl, ?_⟩
  exact C2_status_ts_monotone connHeld10 { connHeld10 with status := some stReq12 }
    (some stReq12) 12 1000 10 12 rfl rfl rfl

/-- C9 counterexample: the readiness signal is not closed at most once
over every call sequence. A first call with a nil request stores the nil
status and closes `statusC`; the second call again finds no held status
and closes `statusC` a second time (in Go, a panic). -/
theorem C9_counterexample :
    initConnector.statusCloses = 0 ∧
    (runStatus 1000 initConnector [(none, 0), (none, 0)]).map
      Connector.statusCloses = some 2 := by
  decide

theorem runStatus_after_first (timeout : Int)
    (l : List (StatusNotificationRequest × Int)) :
    ∀ c : Connector, c.status.isSome →
      ∃ c2, runStatus timeout c (l.map fun p => (some p.1, p.2)) = some c2 ∧
        c2.statusCloses = c.statusCloses ∧ c2.status.isSome := by
  induction l with
  | nil => intro c h; exact ⟨c, rfl, rfl, h⟩
  | cons p rest ih =>
    intro c h
    obtain ⟨st, hst⟩ := Option.isSome_iff_exists.mp h
    have hstep : ∃ c1, c.OnStatusNotification (some p.1) p.2 timeout = some c1 ∧
        c1.statusCloses = c.statusCloses ∧ c1.status.isSome := by
      unfold Connector.OnStatusNotification
      simp only [hst]
      cases hrt : p.1.timestamp with
      | none =>
        simp only [hrt]
        exact ⟨_, rfl, rfl, rfl⟩
      | some t =>
        simp only [hrt]
        by_cases hv : c.timestampValid p.2 timeout t
        · rw [if_pos hv]
          exact ⟨_, rfl, rfl, rfl⟩
        · rw [if_neg hv]
          exact ⟨_, rfl, rfl, h⟩
    obtain ⟨c1, h1, h2, h3⟩ := hstep
    obtain ⟨c2, h4, h5, h6⟩ := ih c1 h3
    refine ⟨c2, ?_, h5.trans h2, h6⟩
    simp only [List.map_cons, runStatus, h1]
    exact h4

/-- C9 amended: over every sequence of `OnStatusNotification` calls with
non-nil requests on a fresh connector, no call panics and the readiness
signal `statusC` is closed exactly once as soon as the sequence is
non-empty — on the first call, since every later call finds a held
status. A nil request is the sole exception: stored as the held status
on a first call, it makes the next call close the channel again
(`C9_counterexample`). -/
theorem C9_readiness_fires_once (reqs : List (StatusNotificationRequest × Int))
    (timeout : Int) :
    ∃ c2, runStatus timeout initConnector (reqs.map fun p => (some p.1, p.2)) = some c2 ∧
      c2.statusCloses = if reqs.isEmpty then 0 else 1 := by
  cases reqs with
  | nil => exact ⟨initConnector, rfl, rfl⟩
  | cons p rest =>
    have h1 : initConnector.OnStatusNotification (some p.1) p.2 timeout =
        some { initConnector with status := some p.1, statusCloses := 1 } := rfl
    obtain ⟨c2, h4, h5, h6⟩ := runStatus_after_first timeout rest
      { initConnector with status := some p.1, statusCloses := 1 } rfl
    refine ⟨c2, ?_, ?_⟩
    · simp only [List.map_cons, runStatus, h1]
      exact h4
    · rw [h5]
      rfl

/-- C3: for every inbound StatusNotification with a non-nil request on a
charger id that has a registration, the dispatcher stores the request in
the per-charger status cache under (charger id, connector number), and
the call returns normally with that cache entry in place whether or not
a logical charge point is attached (the delegation step never touches
the registration map). -/
theorem C3_status_cached_before_delegation (cs : CSState) (id : String)
    (r : StatusNotificationRequest) (now timeout : Int) (reg : Registration)
    (hreg : cs.regs id = some reg) :
    ∃ cs2, CS.OnStatusNotification cs id (some r) now timeout = some cs2 ∧
      ∃ reg2, cs2.regs id = some reg2 ∧ reg2.status r.connectorId = some r := by
  unfold CS.OnStatusNotification
  simp only [hreg]
  cases hcp : cs.cps id with
  | none =>
    refine ⟨_, rfl,
      ⟨{ status := fun c => if c = r.connectorId then some r else reg.status c },
        by simp, by simp⟩⟩
  | some conn =>
    have hconn : ∃ conn2, conn.OnStatusNotification (some r) now timeout = some conn2 := by
      unfold Connector.OnStatusNotification
      cases hst : conn.status with
      | none =>
        simp only [hst]
        exact ⟨_, rfl⟩
      | some st =>
        simp only [hst]
        cases hrt : r.timestamp with
        | none =>
          simp only [hrt]
          exact ⟨_, rfl⟩
        | some t =>
          simp only [hrt]
          by_cases hv : conn.timestampValid now timeout t
          · rw [if_pos hv]; exact ⟨_, rfl⟩
          · rw [if_neg hv]; exact ⟨_, rfl⟩
    obtain ⟨conn2, hc⟩ := hconn
    simp only [hc]
    refine ⟨_, rfl,
      ⟨{ status := fun c => if c = r.connectorId then some r else reg.status c },
        by simp, by simp⟩⟩

/-- A registration with an empty status cache. -/
def emptyReg : Registration where
  status := fun _ => none

/-- A dispatcher state where every charger id is registered but no
logical charge point has attached. -/
def csDemo : CSState where
  regs := fun _ => some emptyReg
  cps := fun _ => none

theorem C3_status_cached_before_delegation_witness :
    csDemo.cps "cp1" = none ∧
    ∃ cs2, CS.OnStatusNotification csDemo "cp1" (some stReq10) 10 1000 = some cs2 ∧
      ∃ reg2, cs2.regs "cp1" = some reg2 ∧
        reg2.status stReq10.connectorId = some stReq10 :=
  ⟨rfl, C3_status_cached_before_delegation csDemo "cp1" stReq10 10 1000 emptyReg rfl⟩

/-- The decoded form of the payload
`"current":"4110","voltage":"249700"` (a JSON object whose two fields
are JSON strings): the Go `json.Unmarshal` into `map[string]any` decodes
the two values as Go strings. -/
def masterplugStringPayload : List (String × JsonVal) :=
  [("current", JsonVal.str "4110"), ("voltage", JsonVal.str "249700")]

/-- C7, evaluated at the failing input: for the recognized
MasterPlug/GetCTClampValue DataTransfer whose data is the JSON object
with string-encoded fields current 4110 and voltage 249700, the
string-to-float parse branch never succeeds, so both extracted values
stay 0, `meterParseMasterplug` fails with `no values`, no sink update is
performed for any charger identity and the sink state is untouched; only
the Accepted response is produced — against the claimed single update
with current 4.11 and voltage 249.7. -/
theorem C7_string_payload_drops_update :
    meterParseMasterplug (some masterplugStringPayload) = Except.error "no values" ∧
    (∀ m : String → Option MeterState,
      CS.OnDataTransfer m "cp1"
        (some { vendorId := "MasterPlug", messageId := "GetCTClampValue",
                data := some masterplugStringPayload }) =
        (m, [], DataTransferStatusAccepted)) := by
  exact ⟨rfl, fun m => rfl⟩

/-- C10: whenever the decoded MasterPlug payload extracts 0 for both
current and voltage (fields missing, non-numeric values, or strings —
which never parse numerically), `meterParseMasterplug` returns the
`no values` error, no sink update is performed for any charger identity
and the sink state is untouched, while the DataTransfer response is
still Accepted. -/
theorem C10_zero_values_no_update (id : String) (obj : List (String × JsonVal))
    (hc : extractNum obj "current" = 0) (hv : extractNum obj "voltage" = 0) :
    meterParseMasterplug (some obj) = Except.error "no values" ∧
    (∀ m : String → Option MeterState,
      CS.OnDataTransfer m id
        (some { vendorId := "MasterPlug", messageId := "GetCTClampValue",
                data := some obj }) =
        (m, [], DataTransferStatusAccepted)) := by
  have hparse : meterParseMasterplug (some obj) = Except.error "no values" := by
    simp only [meterParseMasterplug]
    rw [if_pos ⟨hc, hv⟩]
  refine ⟨hparse, fun m => ?_⟩
  simp only [CS.OnDataTransfer, hparse]
  simp

theorem C10_zero_values_no_update_witness :
    meterParseMasterplug (some [("current", JsonVal.str "abc")]) =
      Except.error "no values" ∧
    CS.OnDataTransfer (fun _ => none) "cp1"
      (some { vendorId := "MasterPlug", messageId := "GetCTClampValue",
              data := some [("current", JsonVal.str "abc")] }) =
      (fun _ => none, [], DataTransferStatusAccepted) := by
  have h := C10_zero_values_no_update "cp1" [("current", JsonVal.str "abc")]
    (by decide) (by decide)
  exact ⟨h.1, h.2 _⟩

theorem C8_stop_idempotent_witness :
    ((stopDemoConn.OnStopTransaction 5).1.OnStopTransaction 6).1.txnId = 0 ∧
    ((stopDemoConn.OnStopTransaction 5).1.OnStopTransaction 6).1.measurements
        MeasurandPowerActiveImport =
      (stopDemoConn.OnStopTransaction 5).1.measurements MeasurandPowerActiveImport :=
  ⟨(C8_stop_idempotent stopDemoConn 5 6).1,
    (C8_stop_idempotent stopDemoConn 5 6).2.2.1 MeasurandPowerActiveImport⟩

theorem C9_readiness_fires_once_witness :
    ∃ c2, runStatus 1000 initConnector
        ([(stReq10, 10)].map fun p => (some p.1, p.2)) = some c2 ∧
      c2.statusCloses = if ([(stReq10, 10)] : List (StatusNotificationRequest × Int)).isEmpty
        then 0 else 1 :=
  C9_readiness_fires_once [(stReq10, 10)] 1000
